import Mathlib

/-!
Verification of the jq-playground preview extension (src/src/extension.ts)
against its natural-language specification.

The development shallowly embeds the session controller of
`JqPreviewSession`: the coalescing update loop (`requestUpdate` and
`runUpdate`), the invocation procedure (`executeJq`), the lifecycle
(`dispose`), the option policy (`updateROption`), the webview message
handler (`setupPanelHandlers`) and the rendering helpers (`escapeHtml`,
the preview content template).  External collaborators (the editor host,
the file system, the jq process) are passed in as explicit environment
values, mirroring the points where the source awaits them.

The repository carries two revisions of the extension source: the
primary src/src/extension.ts, whose line numbers the sections below
cite, and a fuller revision appended after the README text in
src/README.md, which adds result-action buttons (copy, open in new
document), an `openResultDoc` webview message and a regex-based
`highlightJson` tinting pass.  The materialize-as-document and result
tinting sections at the end of this file embed that appended revision
and cite its line numbers.
-/

/-! ## Preview state (the `PreviewType` enum and `previewState` field) -/

/-- The `PreviewType` enum of the source: tag of the last known result. -/
inductive PreviewType
  | placeholder
  | result
  | error
deriving DecidableEq, Repr

/-- The `previewState` field: result content plus its tag. -/
structure PreviewState where
  content : String
  type : PreviewType
deriving DecidableEq, Repr

/-! ## The coalescing update loop (`requestUpdate` / `runUpdate`)

`JqPreviewSession` keeps two booleans, `needUpdate` and `updating`.
`requestUpdate` sets `needUpdate` and, when no update is running, starts
`runUpdate`.  `runUpdate` synchronously sets `updating := true` and
`needUpdate := false`, performs the awaited invocation, and in its
`finally` clause clears `updating` and starts one follow-up run when
`needUpdate` was set meanwhile.  The control skeleton is modelled as a
transition system; `inFlight` counts invocations currently outstanding
and `started` counts invocations ever begun. -/

structure SessionCtl where
  needUpdate : Bool
  updating : Bool
  inFlight : Nat
  started : Nat
deriving DecidableEq, Repr

def SessionCtl.init : SessionCtl :=
  { needUpdate := false, updating := false, inFlight := 0, started := 0 }

/-- The synchronous prefix of `runUpdate` (lines 98-100): mark the update
running, clear the dirty flag, and begin one invocation. -/
def beginRun (s : SessionCtl) : SessionCtl :=
  { s with updating := true, needUpdate := false,
           inFlight := s.inFlight + 1, started := s.started + 1 }

/-- `requestUpdate` (lines 89-95): set the dirty flag; when no update is
running, start `runUpdate`. -/
def requestUpdate (s : SessionCtl) : SessionCtl :=
  let s1 := { s with needUpdate := true }
  if s1.updating then s1 else beginRun s1

/-- The `finally` clause of `runUpdate` (lines 126-133), run when the
awaited invocation completes: clear `updating`; when the dirty flag was
set meanwhile, immediately begin one follow-up invocation.  Completion
of an invocation is only possible while one is in flight, so the step is
the identity on non-`updating` states. -/
def completeRun (s : SessionCtl) : SessionCtl :=
  if s.updating then
    let s1 := { s with updating := false, inFlight := s.inFlight - 1 }
    if s1.needUpdate then beginRun s1 else s1
  else s

/-- External events driving the loop: a change notification
(`requestUpdate`) or completion of the awaited invocation. -/
inductive SEvent
  | request
  | complete
deriving DecidableEq, Repr

def stepEv (s : SessionCtl) : SEvent → SessionCtl
  | SEvent.request => requestUpdate s
  | SEvent.complete => completeRun s

def runEvents (s : SessionCtl) : List SEvent → SessionCtl
  | [] => s
  | e :: es => runEvents (stepEv s e) es

/-- `N` change notifications in a row. -/
def requestN : Nat → SessionCtl → SessionCtl
  | 0, s => s
  | n + 1, s => requestN n (requestUpdate s)

/-- The single-flight invariant tying the invocation counter to the
`updating` flag. -/
def SessionCtl.consistent (s : SessionCtl) : Prop :=
  s.inFlight = if s.updating then 1 else 0

theorem consistent_init : SessionCtl.init.consistent := by
  simp [SessionCtl.init, SessionCtl.consistent]

theorem consistent_beginRun {s : SessionCtl} (h : s.consistent)
    (hu : s.updating = false) : (beginRun s).consistent := by
  have h0 : s.inFlight = 0 := by simpa [SessionCtl.consistent, hu] using h
  simp [beginRun, SessionCtl.consistent, h0]

theorem consistent_requestUpdate {s : SessionCtl} (h : s.consistent) :
    (requestUpdate s).consistent := by
  unfold requestUpdate
  by_cases hu : s.updating
  · simpa [hu, SessionCtl.consistent] using h
  · have hu' : s.updating = false := by simpa using hu
    have h0 : s.inFlight = 0 := by simpa [SessionCtl.consistent, hu'] using h
    simp [hu', beginRun, SessionCtl.consistent, h0]

theorem consistent_completeRun {s : SessionCtl} (h : s.consistent) :
    (completeRun s).consistent := by
  unfold completeRun
  by_cases hu : s.updating
  · simp only [hu, if_true]
    have hf : s.inFlight = 1 := by simpa [SessionCtl.consistent, hu] using h
    by_cases hn : s.needUpdate
    · simp [hn, beginRun, SessionCtl.consistent, hf]
    · simp [hn, SessionCtl.consistent, hf]
  · simpa [hu] using h

theorem consistent_stepEv {s : SessionCtl} (h : s.consistent) (e : SEvent) :
    (stepEv s e).consistent := by
  cases e
  · exact consistent_requestUpdate h
  · exact consistent_completeRun h

theorem consistent_runEvents {s : SessionCtl} (h : s.consistent) :
    ∀ evs : List SEvent, (runEvents s evs).consistent := by
  intro evs
  induction evs generalizing s with
  | nil => simpa [runEvents] using h
  | cons e es ih => exact ih (consistent_stepEv h e)

/-- While an update is running, a change notification only sets the dirty
flag: no new invocation starts. -/
theorem requestUpdate_running {s : SessionCtl} (h : s.updating = true) :
    requestUpdate s = { s with needUpdate := true } := by
  simp [requestUpdate, h]

theorem requestN_running :
    ∀ n : Nat, 1 ≤ n → ∀ s : SessionCtl, s.updating = true →
      requestN n s = { s with needUpdate := true } := by
  intro n
  induction n with
  | zero => omega
  | succ m ih =>
    intro _ s h
    show requestN m (requestUpdate s) = _
    rw [requestUpdate_running h]
    rcases Nat.eq_zero_or_pos m with hm | hm
    · subst hm; rfl
    · exact ih hm { s with needUpdate := true } h

/-- C1: for every Session, at most one filter invocation is in flight at
any time, and for every sequence of `N ≥ 1` change notifications arriving
while an invocation is running, exactly one follow-up invocation is
started after the current one completes (never `N`, never zero): the `N`
notifications start nothing themselves, the completion starts exactly one
run, and the completion of that follow-up (with no further notification)
starts nothing more. -/
theorem claim1_single_flight_and_coalescing :
    (∀ evs : List SEvent, (runEvents SessionCtl.init evs).inFlight ≤ 1)
    ∧ (∀ (s : SessionCtl) (n : Nat), s.updating = true → 1 ≤ n →
        (requestN n s).started = s.started
        ∧ (completeRun (requestN n s)).started = s.started + 1
        ∧ (completeRun (requestN n s)).updating = true
        ∧ (completeRun (completeRun (requestN n s))).started = s.started + 1
        ∧ (completeRun (completeRun (requestN n s))).updating = false) := by
  constructor
  · intro evs
    have h := consistent_runEvents consistent_init evs
    unfold SessionCtl.consistent at h
    rw [h]
    split <;> omega
  · intro s n hu hn
    rw [requestN_running n hn s hu]
    refine ⟨rfl, ?_, ?_, ?_, ?_⟩ <;>
      simp [completeRun, beginRun, hu]

/-- Witness for C1 at a concrete running state and `N = 3`. -/
theorem claim1_witness :
    (runEvents SessionCtl.init
        [SEvent.request, SEvent.request, SEvent.complete]).inFlight ≤ 1
    ∧ (completeRun (requestN 3
        ({ needUpdate := false, updating := true, inFlight := 1, started := 5 } :
          SessionCtl))).started = 5 + 1 :=
  ⟨claim1_single_flight_and_coalescing.1 _,
   (claim1_single_flight_and_coalescing.2
      { needUpdate := false, updating := true, inFlight := 1, started := 5 }
      3 rfl (by decide)).2.1⟩

/-! ## Option-set policy (`updateROption`, lines 398-404)

`updateROption` is applied when the input file is first chosen and when
it is re-chosen from the panel, never on direct option edits.  On a
non-`.json` input it returns `Array.from(new Set([...options, "-R"]))`,
a first-occurrence de-duplication with `"-R"` appended; on a `.json`
input it filters `"-R"` out. -/

/-- First-occurrence de-duplication, the order-preserving semantics of a
JavaScript `Set` built from a list. -/
def dedupeKeepFirst (seen : List String) : List String → List String
  | [] => []
  | x :: xs =>
    if x ∈ seen then dedupeKeepFirst seen xs
    else x :: dedupeKeepFirst (x :: seen) xs

theorem mem_dedupeKeepFirst (a : String) (l : List String) :
    ∀ seen, a ∈ dedupeKeepFirst seen l ↔ a ∈ l ∧ a ∉ seen := by
  induction l with
  | nil => intro seen; simp [dedupeKeepFirst]
  | cons x xs ih =>
    intro seen
    by_cases hx : x ∈ seen
    · rw [dedupeKeepFirst, if_pos hx, ih]
      constructor
      · rintro ⟨h1, h2⟩
        exact ⟨List.mem_cons_of_mem x h1, h2⟩
      · rintro ⟨h1, h2⟩
        rcases List.mem_cons.mp h1 with rfl | h1
        · exact absurd hx h2
        · exact ⟨h1, h2⟩
    · rw [dedupeKeepFirst, if_neg hx]
      rw [List.mem_cons, ih]
      constructor
      · rintro (rfl | ⟨h1, h2⟩)
        · exact ⟨List.mem_cons_self a xs, hx⟩
        · refine ⟨List.mem_cons_of_mem x h1, fun hs => h2 (List.mem_cons_of_mem x hs)⟩
      · rintro ⟨h1, h2⟩
        by_cases hax : a = x
        · exact Or.inl hax
        · rcases List.mem_cons.mp h1 with h | h1
          · exact absurd h hax
          · refine Or.inr ⟨h1, fun hs => ?_⟩
            rcases List.mem_cons.mp hs with h | hs
            · exact hax h
            · exact h2 hs

/-- JavaScript `s.endsWith(suf)`, kept structurally recursive over the
character list so that concrete instances reduce in the kernel. -/
def endsWithStr (s suf : String) : Bool :=
  suf.data.isSuffixOf s.data

/-- `updateROption` (lines 398-404): force `-R` in when the input file
name does not end in `.json`, force it out otherwise. -/
def updateROption (inputFile : String) (options : List String) : List String :=
  if ¬ (endsWithStr inputFile ".json" = true) then
    dedupeKeepFirst [] (options ++ ["-R"])
  else
    options.filter (fun opt => opt ≠ "-R")

/-! ## Rendering helpers (`escapeHtml`, lines 406-415; `path.basename`;
`getWorkspaceRelativePath`, lines 417-428)

`escapeHtml` replaces every occurrence of the five characters of the
regex class with its entity, character by character, via a global regex
replacement; all other characters pass through unchanged. -/

/-- The per-character entity map of `escapeHtml`. -/
def escapeChar (c : Char) : String :=
  if c = '&' then "&amp;"
  else if c = '<' then "&lt;"
  else if c = '>' then "&gt;"
  else if c = '"' then "&quot;"
  else if c = '\'' then "&#039;"
  else String.singleton c

def escapeList : List Char → String
  | [] => ""
  | c :: cs => escapeChar c ++ escapeList cs

/-- `escapeHtml` (lines 406-415). -/
def escapeHtml (text : String) : String :=
  escapeList text.data

/-- A character that cannot open or close markup once embedded: not one
of `<`, `>`, the double quote, the single quote. -/
def noMarkupChar (c : Char) : Bool :=
  !(c == '<' || c == '>' || c == '"' || c == '\'')

/-- The whole string is free of markup-opening characters. -/
def htmlSafe (s : String) : Bool :=
  s.data.all noMarkupChar

theorem escapeList_append (l1 l2 : List Char) :
    escapeList (l1 ++ l2) = escapeList l1 ++ escapeList l2 := by
  induction l1 with
  | nil => simp [escapeList]
  | cons c cs ih =>
    show escapeChar c ++ escapeList (cs ++ l2) = _
    rw [ih, ← String.append_assoc]
    rfl

theorem escapeHtml_append (a b : String) :
    escapeHtml (a ++ b) = escapeHtml a ++ escapeHtml b := by
  unfold escapeHtml
  rw [String.data_append, escapeList_append]

theorem escapeChar_safe (c : Char) : (escapeChar c).data.all noMarkupChar = true := by
  by_cases h1 : c = '&'
  · subst h1; decide
  · by_cases h2 : c = '<'
    · subst h2; decide
    · by_cases h3 : c = '>'
      · subst h3; decide
      · by_cases h4 : c = '"'
        · subst h4; decide
        · by_cases h5 : c = '\''
          · subst h5; decide
          · simp [escapeChar, h1, h2, h3, h4, h5, String.singleton, noMarkupChar]

theorem escapeList_safe (l : List Char) :
    (escapeList l).data.all noMarkupChar = true := by
  induction l with
  | nil => decide
  | cons c cs ih =>
    show ((escapeChar c ++ escapeList cs).data.all noMarkupChar) = true
    rw [String.data_append, List.all_append]
    rw [escapeChar_safe, ih]
    rfl

theorem escapeHtml_safe (s : String) : htmlSafe (escapeHtml s) = true :=
  escapeList_safe s.data

/-- `path.basename` for the slash-separated paths the extension builds:
the last path segment.  (The trailing-separator special case of node is
not exercised by the source, which always passes plain file paths.) -/
def basenameAux (cur : List Char) : List Char → List Char
  | [] => cur.reverse
  | c :: t => if c = '/' then basenameAux [] t else basenameAux (c :: cur) t

def basename (p : String) : String :=
  String.mk (basenameAux [] p.data)

/-- `path.relative(wsPath, filePath)` for the only case the source uses
it in: `filePath` starts with `wsPath`, so the relative path is the rest
with a leading separator stripped. -/
def relPathFrom (ws filePath : String) : String :=
  let rest := filePath.data.drop ws.data.length
  String.mk (if rest.head? = some '/' then rest.drop 1 else rest)

/-- `getWorkspaceRelativePath` (lines 417-428): scan the workspace
folders for a prefix of the path, else return the path unchanged. -/
def getWorkspaceRelativePath (wsFolders : List String) (filePath : String) : String :=
  match wsFolders.find? (fun ws => ws.data.isPrefixOf filePath.data) with
  | some ws => relPathFrom ws filePath
  | none => filePath

/-! ## The preview content template (`getWebviewContent`, lines 198-213)

The `previewContent` template literal interpolates exactly three values:
the escaped basename of the input file, the CSS class taken from the
preview type tag, and the escaped result content.  The surrounding HTML
document (head, style sheet, script) is a constant wrapper with no
untrusted interpolation apart from the workspace-relative input path,
which is likewise embedded through `escapeHtml` (line 257). -/

/-- The string value of the `PreviewType` enum members, used as the CSS
class of the content div. -/
def PreviewType.cssClass : PreviewType → String
  | PreviewType.placeholder => "placeholder"
  | PreviewType.result => "result"
  | PreviewType.error => "error"

def pvSeg1 : String :=
  "\n            <div class=\"json-file\">\n                <div class=\"json-file-header\">"
def pvSeg2 : String :=
  "</div>\n                <div class=\"json-content\">\n                    <div class=\""
def pvSeg3 : String :=
  "\">\n                        <pre>"
def pvSeg4 : String :=
  "</pre>\n                    </div>\n                </div>\n            </div>\n        "

/-- The `previewContent` template literal of `getWebviewContent`
(lines 204-213). -/
def previewContentHtml (inputFile : String) (ps : PreviewState) : String :=
  pvSeg1 ++ escapeHtml (basename inputFile)
    ++ pvSeg2 ++ ps.type.cssClass
    ++ pvSeg3 ++ escapeHtml ps.content
    ++ pvSeg4

/-- `getWebviewContent` (lines 198-213): the guard for a missing input
file, else the preview content.  The constant document wrapper around
`previewContent` carries no untrusted text and is elided. -/
def getWebviewContentModel (inputFile : String) (ps : PreviewState) : String :=
  if inputFile = "" then
    "<p style=\"color: orange;\">No input file selected.</p>"
  else
    previewContentHtml inputFile ps

/-! ## The session object (`JqPreviewSession`)

The fields relevant to the verified claims.  `panel` models the `panel`
field: the constructor requires a panel object and no statement of the
class ever clears or reassigns the field, so `none` is never reached by
the modelled code; the panel object itself carries the host-side
`hostDisposed` flag (set when the user closes the panel) and the
`webview.html` property together with a count of assignments to it. -/

/-- The host webview panel object held in the `panel` field. -/
structure PanelObj where
  hostDisposed : Bool
  html : String
  htmlWrites : Nat
deriving DecidableEq, Repr

structure Session where
  panel : Option PanelObj
  disposables : List Nat
  inputFile : String
  filterFileName : String
  options : List String
  previewState : PreviewState
  needUpdate : Bool
  updating : Bool
deriving DecidableEq, Repr

/-- `setWebviewContent` (lines 191-196): when the `panel` field holds a
panel, assign `panel.webview.html` the rendered content.  The field is
tested, not the host-side disposal state. -/
def setWebviewContentS (s : Session) : Session :=
  match s.panel with
  | some p =>
      { s with panel := some { p with
          html := getWebviewContentModel s.inputFile s.previewState,
          htmlWrites := p.htmlWrites + 1 } }
  | none => s

/-- `dispose` (lines 354-357): dispose every subscription and empty the
list.  The `panel` field and every other field are left untouched. -/
def Session.dispose (s : Session) : Session :=
  { s with disposables := [] }

/-- The inbound webview messages decoded by `setupPanelHandlers`
(lines 166-184): an option-set replacement carrying the new option list,
an input-file re-selection request, or anything else (ignored). -/
inductive WebviewMsg
  | setOptions (options : List String)
  | chooseInput
  | otherMsg (msgType : String)
deriving DecidableEq, Repr

/-- The message handler of `setupPanelHandlers` (lines 166-184).  `pick`
is the outcome of the host file picker awaited in the `chooseInput`
branch.  A `setOptions` message stores the received options as-is; a
`chooseInput` message with a picked file stores the file and re-derives
the options through `updateROption`.  (Both branches then re-render and
request an update; the re-render is `setWebviewContentS` and the update
protocol is the `SessionCtl` machine above.) -/
def handleWebviewMessage (pick : Option String) (s : Session) :
    WebviewMsg → Session
  | WebviewMsg.setOptions opts => { s with options := opts }
  | WebviewMsg.chooseInput =>
      match pick with
      | some newInput =>
          { s with inputFile := newInput,
                   options := updateROption newInput s.options }
      | none => s
  | WebviewMsg.otherMsg _ => s

/-- C3: after the input file is set or changed the `-R` flag is present
in the option set iff the file name does not end in `.json`; membership
of every other flag is undisturbed; and the policy runs only on
input-file changes (a direct `setOptions` edit is stored as-is, while a
`chooseInput` with a picked file routes the stored options through
`updateROption`). -/
theorem claim3_raw_input_policy :
    (∀ (f : String) (opts : List String),
        "-R" ∈ updateROption f opts ↔ endsWithStr f ".json" = false)
    ∧ (∀ (f o : String) (opts : List String), o ≠ "-R" →
        (o ∈ updateROption f opts ↔ o ∈ opts))
    ∧ (∀ (pick : Option String) (s : Session) (opts : List String),
        (handleWebviewMessage pick s (WebviewMsg.setOptions opts)).options = opts)
    ∧ (∀ (s : Session) (newInput : String),
        (handleWebviewMessage (some newInput) s WebviewMsg.chooseInput).options
            = updateROption newInput s.options
          ∧ (handleWebviewMessage (some newInput) s WebviewMsg.chooseInput).inputFile
            = newInput) := by
  refine ⟨?_, ?_, ?_, ?_⟩
  · intro f opts
    unfold updateROption
    by_cases h : endsWithStr f ".json" = true
    · simp [h, List.mem_filter]
    · simp [h, mem_dedupeKeepFirst]
  · intro f o opts ho
    unfold updateROption
    by_cases h : endsWithStr f ".json" = true
    · simp [h, List.mem_filter, ho]
    · simp [h, mem_dedupeKeepFirst, ho]
  · intro pick s opts
    rfl
  · intro s newInput
    simp only [handleWebviewMessage]
    exact ⟨trivial, trivial⟩

/-- Witness for C3 at a non-`.json` input with one unrelated flag. -/
theorem claim3_witness :
    ("-R" ∈ updateROption "notes.txt" ["-c"]
        ↔ endsWithStr "notes.txt" ".json" = false)
    ∧ ("-c" ∈ updateROption "notes.txt" ["-c"] ↔ "-c" ∈ (["-c"] : List String)) :=
  ⟨claim3_raw_input_policy.1 "notes.txt" ["-c"],
   claim3_raw_input_policy.2.1 "notes.txt" "-c" ["-c"] (by decide)⟩

/-! ## The invocation procedure (`executeJq`, lines 319-352)

`executeJq` writes the input content and the filter text to two fresh
temporary files, awaits
`execAsync("jq <opts> -f '<tmpFilter>' '<tmpFile>' 2>&1")` — stdout and
stderr are combined by the `2>&1` redirection — and returns the trimmed
captured output.  Any throw (a `writeFileSync` error or a non-zero exit)
is caught, turned into a display message and re-thrown as `Error(msg)`;
the `finally` clause unlinks both temporary files, swallowing unlink
failures.  The host pieces (temporary names, write outcomes, the process
outcome, unlink outcomes, workspace folders) are an explicit
environment. -/

/-- JavaScript string helpers used by the catch clause.  `jsOr` is
`a || b` under string truthiness (the empty string is falsy). -/
def jsOr (a b : String) : String :=
  if a = "" then b else a

/-- Substring scan over character lists, structurally recursive so that
concrete instances reduce in the kernel. -/
def listContainsSub (needle hay : List Char) : Bool :=
  if needle.isPrefixOf hay then true
  else
    match hay with
    | [] => false
    | _ :: t => listContainsSub needle t

/-- JavaScript `hay.includes(needle)`. -/
def includesSubstr (hay needle : String) : Bool :=
  listContainsSub needle.data hay.data

/-- Left-to-right replace-all scan; the fuel is the length of the
remaining text, so the recursion is structural. -/
def replaceAllAux (needle repl : List Char) : Nat → List Char → List Char
  | 0, hay => hay
  | _ + 1, [] => []
  | fuel + 1, c :: t =>
    if needle.isPrefixOf (c :: t) then
      repl ++ replaceAllAux needle repl fuel ((c :: t).drop needle.length)
    else
      c :: replaceAllAux needle repl fuel t

/-- JavaScript `hay.replaceAll(needle, repl)`; the source only passes
non-empty needles (the temporary paths). -/
def replaceAllStr (hay needle repl : String) : String :=
  if needle = "" then hay
  else String.mk (replaceAllAux needle.data repl.data hay.data.length hay.data)

/-- JavaScript `String.prototype.trim` on the ASCII whitespace the
captured jq output can carry. -/
def isWhitespaceChar (c : Char) : Bool :=
  c == ' ' || c == '\t' || c == '\n' || c == '\r'

def trimStr (s : String) : String :=
  String.mk (((s.data.dropWhile isWhitespaceChar).reverse.dropWhile
      isWhitespaceChar).reverse)

/-- The guided installation message substituted when the diagnostic
shows the evaluator binary is absent (line 345). -/
def jqNotFoundMsg : String :=
  "jq command not found. Please install jq on your system: https://jqlang.org/download/"

/-- The rejection value read by the catch clause: the fields
`error.stdout`, `error.stderr`, `error.message` (absent fields are the
empty string, which is falsy under `||`). -/
structure JsError where
  stdout : String
  stderr : String
  message : String
deriving DecidableEq, Repr

/-- Outcome of the awaited `execAsync` call: the captured combined
output on exit 0, or a rejection carrying captured output and message. -/
inductive ExecOutcome
  | success (stdout : String)
  | failure (stdout stderr message : String)
deriving DecidableEq, Repr

/-- Lines 335-343 of the catch clause: pick the first truthy diagnostic
field (falling back to `String(error)`, which is `"Error"` for an empty
message) and rewrite both temporary paths to the workspace-relative
display paths when those are truthy. -/
def substitutedErrMsg (e : JsError)
    (tmpFile tmpFilter jsonDisplay filterDisplay : String) : String :=
  let m0 := jsOr e.stdout (jsOr e.stderr (jsOr e.message "Error"))
  let m1 := if jsonDisplay = "" then m0 else replaceAllStr m0 tmpFile jsonDisplay
  if filterDisplay = "" then m1 else replaceAllStr m1 tmpFilter filterDisplay

/-- Lines 335-347: the full message construction, including the
evaluator-not-found substitution. -/
def buildJqErrorMsg (e : JsError)
    (tmpFile tmpFilter jsonDisplay filterDisplay : String) : String :=
  let m := substitutedErrMsg e tmpFile tmpFilter jsonDisplay filterDisplay
  if includesSubstr m "command not found" then jqNotFoundMsg else m

/-- The environment of one `executeJq` call. -/
structure JqEnv where
  tmpFile : String
  tmpFilter : String
  writeInputErr : Option String
  writeFilterErr : Option String
  exec : ExecOutcome
  unlinkInputOk : Bool
  unlinkFilterOk : Bool
  wsFolders : List String
deriving DecidableEq, Repr

/-- Result and observable file-system effects of one `executeJq` call. -/
structure JqCallResult where
  result : Except String String
  wroteInput : Option String
  wroteFilter : Option String
  cmd : Option String
  unlinkAttempts : List String
  tmpFilesLeft : List String
deriving Repr

/-- Shell single-quoting of the two temporary paths in the command. -/
def shQuote (p : String) : String :=
  String.singleton '\'' ++ p ++ String.singleton '\''

/-- The `finally` clause (lines 348-351): `unlinkSync` is attempted on
both temporary files, each attempt wrapped in its own empty catch;
`created` is the list of temporary files that exist at that point. -/
def cleanupTmp (env : JqEnv) (created : List String) :
    List String × List String :=
  let after1 :=
    if env.unlinkInputOk then created.filter (fun f => f ≠ env.tmpFile)
    else created
  let after2 :=
    if env.unlinkFilterOk then after1.filter (fun f => f ≠ env.tmpFilter)
    else after1
  ([env.tmpFile, env.tmpFilter], after2)

/-- `executeJq` (lines 319-352). -/
def executeJq (env : JqEnv) (options : List String)
    (jsonContent filterText inputFile filterFileName : String) :
    JqCallResult :=
  let jsonDisplay := getWorkspaceRelativePath env.wsFolders inputFile
  let filterDisplay := getWorkspaceRelativePath env.wsFolders filterFileName
  match env.writeInputErr with
  | some m =>
      { result := Except.error (buildJqErrorMsg
          { stdout := "", stderr := "", message := m }
          env.tmpFile env.tmpFilter jsonDisplay filterDisplay),
        wroteInput := none, wroteFilter := none, cmd := none,
        unlinkAttempts := (cleanupTmp env []).1,
        tmpFilesLeft := (cleanupTmp env []).2 }
  | none =>
      match env.writeFilterErr with
      | some m =>
          { result := Except.error (buildJqErrorMsg
              { stdout := "", stderr := "", message := m }
              env.tmpFile env.tmpFilter jsonDisplay filterDisplay),
            wroteInput := some jsonContent, wroteFilter := none, cmd := none,
            unlinkAttempts := (cleanupTmp env [env.tmpFile]).1,
            tmpFilesLeft := (cleanupTmp env [env.tmpFile]).2 }
      | none =>
          let cmd := "jq " ++ String.intercalate " " options ++ " -f "
            ++ shQuote env.tmpFilter ++ " " ++ shQuote env.tmpFile ++ " 2>&1"
          match env.exec with
          | ExecOutcome.success out =>
              { result := Except.ok (trimStr out),
                wroteInput := some jsonContent, wroteFilter := some filterText,
                cmd := some cmd,
                unlinkAttempts := (cleanupTmp env [env.tmpFile, env.tmpFilter]).1,
                tmpFilesLeft := (cleanupTmp env [env.tmpFile, env.tmpFilter]).2 }
          | ExecOutcome.failure so se msg =>
              { result := Except.error (buildJqErrorMsg
                  { stdout := so, stderr := se, message := msg }
                  env.tmpFile env.tmpFilter jsonDisplay filterDisplay),
                wroteInput := some jsonContent, wroteFilter := some filterText,
                cmd := some cmd,
                unlinkAttempts := (cleanupTmp env [env.tmpFile, env.tmpFilter]).1,
                tmpFilesLeft := (cleanupTmp env [env.tmpFile, env.tmpFilter]).2 }

theorem executeJq_result_success (env : JqEnv) (options : List String)
    (jsonContent filterText inputFile filterFileName out : String)
    (h1 : env.writeInputErr = none) (h2 : env.writeFilterErr = none)
    (h3 : env.exec = ExecOutcome.success out) :
    (executeJq env options jsonContent filterText inputFile filterFileName).result
      = Except.ok (trimStr out) := by
  unfold executeJq
  rw [h1, h2, h3]

theorem executeJq_result_failure (env : JqEnv) (options : List String)
    (jsonContent filterText inputFile filterFileName so se m : String)
    (h1 : env.writeInputErr = none) (h2 : env.writeFilterErr = none)
    (h3 : env.exec = ExecOutcome.failure so se m) :
    (executeJq env options jsonContent filterText inputFile filterFileName).result
      = Except.error (buildJqErrorMsg { stdout := so, stderr := se, message := m }
          env.tmpFile env.tmpFilter
          (getWorkspaceRelativePath env.wsFolders inputFile)
          (getWorkspaceRelativePath env.wsFolders filterFileName)) := by
  unfold executeJq
  rw [h1, h2, h3]

theorem filter_pair_gone (a b : String) :
    (([a, b].filter (fun f => f ≠ a)).filter (fun f => f ≠ b)) = [] := by
  by_cases h : b = a <;> simp [h]

/-- C6: both temporary files are unlink-attempted on every path through
`executeJq` (success, evaluator failure, either write failure); when the
unlink calls themselves succeed no temporary file is left behind; and
unlink failures are swallowed: the call's result does not depend on the
unlink outcomes. -/
theorem claim6_tmpfile_cleanup :
    ∀ (env : JqEnv) (options : List String)
      (jsonContent filterText inputFile filterFileName : String),
      (executeJq env options jsonContent filterText inputFile
          filterFileName).unlinkAttempts = [env.tmpFile, env.tmpFilter]
      ∧ (env.unlinkInputOk = true → env.unlinkFilterOk = true →
          (executeJq env options jsonContent filterText inputFile
              filterFileName).tmpFilesLeft = [])
      ∧ (∀ a b : Bool,
          (executeJq { env with unlinkInputOk := a, unlinkFilterOk := b }
              options jsonContent filterText inputFile filterFileName).result
            = (executeJq env options jsonContent filterText inputFile
                filterFileName).result) := by
  intro env options jc ft infile ffn
  rcases env with ⟨tf, tflt, wie, wfe, ex, ui, uf, ws⟩
  refine ⟨?_, ?_, ?_⟩
  · cases wie <;> cases wfe <;> cases ex <;> rfl
  · intro hui huf
    simp only at hui huf
    subst hui huf
    cases wie <;> cases wfe <;> cases ex <;>
      simp [executeJq, cleanupTmp, filter_pair_gone]
  · intro a b
    cases wie <;> cases wfe <;> cases ex <;> rfl

/-- Witness for C6 at a concrete call whose unlink of the filter copy
fails. -/
theorem claim6_witness :
    (executeJq
        { tmpFile := "/tmp/jq-playground-aa.json",
          tmpFilter := "/tmp/jq-playground-filter-bb.jq",
          writeInputErr := none, writeFilterErr := none,
          exec := ExecOutcome.success "1\n",
          unlinkInputOk := true, unlinkFilterOk := true, wsFolders := [] }
        [] "[1]" ".[0]" "/w/in.json" "/w/f.jq").tmpFilesLeft = []
    ∧ (executeJq
        { tmpFile := "/tmp/jq-playground-aa.json",
          tmpFilter := "/tmp/jq-playground-filter-bb.jq",
          writeInputErr := none, writeFilterErr := none,
          exec := ExecOutcome.success "1\n",
          unlinkInputOk := false, unlinkFilterOk := false, wsFolders := [] }
        [] "[1]" ".[0]" "/w/in.json" "/w/f.jq").result
      = (executeJq
        { tmpFile := "/tmp/jq-playground-aa.json",
          tmpFilter := "/tmp/jq-playground-filter-bb.jq",
          writeInputErr := none, writeFilterErr := none,
          exec := ExecOutcome.success "1\n",
          unlinkInputOk := true, unlinkFilterOk := true, wsFolders := [] }
        [] "[1]" ".[0]" "/w/in.json" "/w/f.jq").result :=
  ⟨(claim6_tmpfile_cleanup
      { tmpFile := "/tmp/jq-playground-aa.json",
        tmpFilter := "/tmp/jq-playground-filter-bb.jq",
        writeInputErr := none, writeFilterErr := none,
        exec := ExecOutcome.success "1\n",
        unlinkInputOk := true, unlinkFilterOk := true, wsFolders := [] }
      [] "[1]" ".[0]" "/w/in.json" "/w/f.jq").2.1 rfl rfl,
   (claim6_tmpfile_cleanup
      { tmpFile := "/tmp/jq-playground-aa.json",
        tmpFilter := "/tmp/jq-playground-filter-bb.jq",
        writeInputErr := none, writeFilterErr := none,
        exec := ExecOutcome.success "1\n",
        unlinkInputOk := true, unlinkFilterOk := true, wsFolders := [] }
      [] "[1]" ".[0]" "/w/in.json" "/w/f.jq").2.2 false false⟩

/-- C10: on every successful invocation the Result content is the
captured combined output (stdout and stderr merged by the `2>&1`
redirection) with leading and trailing whitespace removed. -/
theorem claim10_success_output_trimmed :
    ∀ (env : JqEnv) (options : List String)
      (jsonContent filterText inputFile filterFileName out : String),
      env.writeInputErr = none → env.writeFilterErr = none →
      env.exec = ExecOutcome.success out →
      (executeJq env options jsonContent filterText inputFile
          filterFileName).result = Except.ok (trimStr out) := by
  intro env options jc ft infile ffn out h1 h2 h3
  exact executeJq_result_success env options jc ft infile ffn out h1 h2 h3

/-- Witness for C10: the captured output carries trailing and leading
whitespace, and the Result content is the trimmed text, not the raw
capture. -/
theorem claim10_witness :
    (executeJq
        { tmpFile := "/tmp/jq-playground-cc.json",
          tmpFilter := "/tmp/jq-playground-filter-dd.jq",
          writeInputErr := none, writeFilterErr := none,
          exec := ExecOutcome.success "  [\n  \"Alice\",\n  30\n]\n",
          unlinkInputOk := true, unlinkFilterOk := true, wsFolders := [] }
        [] "[1]" ".[0]" "/w/people.json" "/w/filter.jq").result
      = Except.ok "[\n  \"Alice\",\n  30\n]"
    ∧ trimStr "  [\n  \"Alice\",\n  30\n]\n" ≠ "  [\n  \"Alice\",\n  30\n]\n" :=
  ⟨(claim10_success_output_trimmed
      { tmpFile := "/tmp/jq-playground-cc.json",
        tmpFilter := "/tmp/jq-playground-filter-dd.jq",
        writeInputErr := none, writeFilterErr := none,
        exec := ExecOutcome.success "  [\n  \"Alice\",\n  30\n]\n",
        unlinkInputOk := true, unlinkFilterOk := true, wsFolders := [] }
      [] "[1]" ".[0]" "/w/people.json" "/w/filter.jq"
      "  [\n  \"Alice\",\n  30\n]\n" rfl rfl rfl).trans
    (congrArg Except.ok (by decide)),
   by decide⟩

/-- C4: when the evaluator binary is unavailable the captured diagnostic
contains `command not found` (the shell message captured through the
`2>&1` redirection), and then the invocation yields the error Result
whose message is exactly the guided installation hint — independent of
the filter text, the input content and the options. -/
theorem claim4_evaluator_not_found_hint :
    ∀ (env : JqEnv) (options : List String)
      (jsonContent filterText inputFile filterFileName so se m : String),
      env.writeInputErr = none → env.writeFilterErr = none →
      env.exec = ExecOutcome.failure so se m →
      includesSubstr (substitutedErrMsg { stdout := so, stderr := se, message := m }
          env.tmpFile env.tmpFilter
          (getWorkspaceRelativePath env.wsFolders inputFile)
          (getWorkspaceRelativePath env.wsFolders filterFileName))
          "command not found" = true →
      (executeJq env options jsonContent filterText inputFile
          filterFileName).result = Except.error jqNotFoundMsg
      ∧ includesSubstr jqNotFoundMsg "Please install jq" = true
      ∧ includesSubstr jqNotFoundMsg "https://jqlang.org/download/" = true := by
  intro env options jc ft infile ffn so se m h1 h2 h3 h4
  refine ⟨?_, by decide, by decide⟩
  rw [executeJq_result_failure env options jc ft infile ffn so se m h1 h2 h3]
  simp only [buildJqErrorMsg, h4, if_true]

/-- Witness for C4: a shell not-found diagnostic captured on stdout. -/
theorem claim4_witness :
    (executeJq
        { tmpFile := "/tmp/jq-playground-ee.json",
          tmpFilter := "/tmp/jq-playground-filter-ff.jq",
          writeInputErr := none, writeFilterErr := none,
          exec := ExecOutcome.failure "/bin/sh: jq: command not found\n" ""
            "Command failed",
          unlinkInputOk := true, unlinkFilterOk := true, wsFolders := [] }
        ["-c"] "[]" "." "/w/data.json" "/w/filter.jq").result
      = Except.error jqNotFoundMsg :=
  (claim4_evaluator_not_found_hint
      { tmpFile := "/tmp/jq-playground-ee.json",
        tmpFilter := "/tmp/jq-playground-filter-ff.jq",
        writeInputErr := none, writeFilterErr := none,
        exec := ExecOutcome.failure "/bin/sh: jq: command not found\n" ""
          "Command failed",
        unlinkInputOk := true, unlinkFilterOk := true, wsFolders := [] }
      ["-c"] "[]" "." "/w/data.json" "/w/filter.jq"
      "/bin/sh: jq: command not found\n" "" "Command failed"
      rfl rfl rfl (by decide)).1

/-! ## One `runUpdate` cycle (lines 97-134)

The data path of one cycle: the synchronous prefix, the guarded body
(read the input text, run `executeJq`, store the new preview state,
re-render), the inner catch converting any throw into the error preview
state, and the `finally` clause.  The dirty-flag coalescing across
interleaved cycles is the `SessionCtl` machine above; within one
uninterrupted cycle `needUpdate` stays false, so the `finally` clause
takes its idle branch. -/

/-- The host inputs read by one cycle: the in-memory text of the input
file when it is open in an editor, the `readFileSync` outcome otherwise,
and the filter text of the bound editor document. -/
structure ReadEnv where
  openDocText : Option String
  diskRead : Except String String
  filterText : String
deriving Repr

/-- Lines 106-113: prefer the open-document text over the on-disk
content; a `readFileSync` throw carries only an error message. -/
def readInputContent (r : ReadEnv) : Except JsError String :=
  match r.openDocText with
  | some t => Except.ok t
  | none =>
      match r.diskRead with
      | Except.ok t => Except.ok t
      | Except.error m =>
          Except.error { stdout := "", stderr := "", message := m }

/-- Lines 120-124 and 127: store the freshly computed preview state,
re-render through `setWebviewContentS`, and clear the running flag in
the `finally` clause. -/
def applyPreview (ps : PreviewState) (s : Session) : Session :=
  { setWebviewContentS { s with updating := true, needUpdate := false, previewState := ps } with updating := false }

/-- One `runUpdate` cycle.  Returns the session after the cycle together
with the `executeJq` call record when the invocation was reached. -/
def runUpdateOnce (r : ReadEnv) (env : JqEnv) (s : Session) :
    Session × Option JqCallResult :=
  match s.panel with
  | none => ({ s with updating := false, needUpdate := false }, none)
  | some _ =>
      match readInputContent r with
      | Except.error e =>
          (applyPreview { content := e.message, type := PreviewType.error } s,
           none)
      | Except.ok jsonContent =>
          (applyPreview
            (match (executeJq env s.options jsonContent r.filterText
                s.inputFile s.filterFileName).result with
             | Except.ok out => { content := out, type := PreviewType.result }
             | Except.error msg =>
                { content := msg, type := PreviewType.error }) s,
           some (executeJq env s.options jsonContent r.filterText
              s.inputFile s.filterFileName))

theorem setWebviewContentS_previewState (s : Session) :
    (setWebviewContentS s).previewState = s.previewState := by
  unfold setWebviewContentS
  cases hsp : s.panel <;> rfl

theorem applyPreview_previewState (ps : PreviewState) (s : Session) :
    (applyPreview ps s).previewState = ps := by
  unfold applyPreview
  exact setWebviewContentS_previewState _

/-- C5: every cycle terminates normally with the running flag cleared,
and every failure — a file-read throw, a write throw inside `executeJq`,
or an evaluator failure — is converted into the error variant of the
preview Result; a success stores the result variant.  No other outcome
exists, so no exception escapes the invocation boundary. -/
theorem claim5_failures_contained :
    ∀ (r : ReadEnv) (env : JqEnv) (s : Session),
      s.panel.isSome = true →
      ((runUpdateOnce r env s).1.updating = false)
      ∧ (∀ m : String, r.openDocText = none → r.diskRead = Except.error m →
          (runUpdateOnce r env s).1.previewState
            = { content := m, type := PreviewType.error })
      ∧ (∀ jc msgE : String, readInputContent r = Except.ok jc →
          (executeJq env s.options jc r.filterText s.inputFile
              s.filterFileName).result = Except.error msgE →
          (runUpdateOnce r env s).1.previewState
            = { content := msgE, type := PreviewType.error })
      ∧ (∀ jc out : String, readInputContent r = Except.ok jc →
          (executeJq env s.options jc r.filterText s.inputFile
              s.filterFileName).result = Except.ok out →
          (runUpdateOnce r env s).1.previewState
            = { content := out, type := PreviewType.result }) := by
  intro r env s hp
  rcases hs : s.panel with _ | p
  · rw [hs] at hp
    simp at hp
  refine ⟨?_, ?_, ?_, ?_⟩
  · unfold runUpdateOnce
    rw [hs]
    rcases hr : readInputContent r with e | jc <;> rfl
  · intro m h1 h2
    have hr : readInputContent r
        = Except.error { stdout := "", stderr := "", message := m } := by
      unfold readInputContent
      rw [h1, h2]
    unfold runUpdateOnce
    rw [hs, hr]
    exact applyPreview_previewState _ _
  · intro jc msgE h1 h2
    simp only [runUpdateOnce, hs, h1, h2]
    exact applyPreview_previewState _ _
  · intro jc out h1 h2
    simp only [runUpdateOnce, hs, h1, h2]
    exact applyPreview_previewState _ _

/-- Witness for C5: a missing input file whose read throws is converted
into the error preview state. -/
theorem claim5_witness :
    (runUpdateOnce
        { openDocText := none,
          diskRead := Except.error "ENOENT: no such file or directory",
          filterText := "." }
        { tmpFile := "/tmp/jq-playground-11.json",
          tmpFilter := "/tmp/jq-playground-filter-12.jq",
          writeInputErr := none, writeFilterErr := none,
          exec := ExecOutcome.success "null\n",
          unlinkInputOk := true, unlinkFilterOk := true, wsFolders := [] }
        { panel := some { hostDisposed := false, html := "", htmlWrites := 0 },
          disposables := [0],
          inputFile := "/w/in.json", filterFileName := "/w/f.jq",
          options := [],
          previewState := { content := "Loading...", type := PreviewType.placeholder },
          needUpdate := false, updating := false }).1.previewState
      = { content := "ENOENT: no such file or directory",
          type := PreviewType.error } :=
  (claim5_failures_contained
      { openDocText := none,
        diskRead := Except.error "ENOENT: no such file or directory",
        filterText := "." }
      { tmpFile := "/tmp/jq-playground-11.json",
        tmpFilter := "/tmp/jq-playground-filter-12.jq",
        writeInputErr := none, writeFilterErr := none,
        exec := ExecOutcome.success "null\n",
        unlinkInputOk := true, unlinkFilterOk := true, wsFolders := [] }
      { panel := some { hostDisposed := false, html := "", htmlWrites := 0 },
        disposables := [0],
        inputFile := "/w/in.json", filterFileName := "/w/f.jq",
        options := [],
        previewState := { content := "Loading...", type := PreviewType.placeholder },
        needUpdate := false, updating := false }
      rfl).2.1 "ENOENT: no such file or directory" rfl rfl

/-! ## Session teardown and late results (C2)

`dispose` (lines 354-357) releases the subscriptions but never clears
the `panel` field, and nothing else does: after the host disposes the
panel and `onDidDispose` runs `dispose`, the field still holds the
(host-disposed) panel object.  The guard `if (this.panel)` in
`setWebviewContent` (line 192) and in `runUpdate` (line 102) therefore
still passes, so an in-flight invocation that completes after teardown
stores its preview state and assigns `panel.webview.html` on the
disposed panel — the result is applied, not discarded (and a host that
rejects writes to a disposed webview raises from this assignment, with
no catch around it). -/

/-- A session whose panel the host has just disposed, with one
invocation still in flight (`updating = true`). -/
def preC2 : Session :=
  { panel := some { hostDisposed := true, html := "<p>previous result</p>", htmlWrites := 0 },
    disposables := [1, 2, 3],
    inputFile := "/w/in.json", filterFileName := "/w/f.jq",
    options := [],
    previewState := { content := "old", type := PreviewType.result },
    needUpdate := false, updating := true }

def rC2 : ReadEnv :=
  { openDocText := some "[1]", diskRead := Except.ok "[1]",
    filterText := "." }

def envC2 : JqEnv :=
  { tmpFile := "/tmp/jq-playground-99.json",
    tmpFilter := "/tmp/jq-playground-filter-98.jq",
    writeInputErr := none, writeFilterErr := none,
    exec := ExecOutcome.success "late output\n",
    unlinkInputOk := true, unlinkFilterOk := true, wsFolders := [] }

/-- C2 fails on the code: `dispose` leaves the `panel` field set, so the
completion of the slow in-flight invocation after teardown reaches the
invocation and applies its result — the preview state is overwritten and
`webview.html` is assigned (one new write) on the host-disposed panel —
instead of being discarded. -/
theorem claim2_late_result_is_applied :
    (Session.dispose preC2).panel = preC2.panel
    ∧ (Session.dispose preC2).panel.map PanelObj.hostDisposed = some true
    ∧ (runUpdateOnce rC2 envC2 (Session.dispose preC2)).2.isSome = true
    ∧ (runUpdateOnce rC2 envC2 (Session.dispose preC2)).1.previewState
        = { content := "late output", type := PreviewType.result }
    ∧ (runUpdateOnce rC2 envC2 (Session.dispose preC2)).1.panel.map
        PanelObj.htmlWrites = some 1 := by
  refine ⟨rfl, rfl, rfl, by decide, by decide⟩

/-- C7: the rendered display payload embeds the untrusted texts — the
result content and the input-file name — only through `escapeHtml`,
which maps each of the five characters to its entity and every other
character to itself (so it distributes over concatenation), and whose
output contains no character able to open or close markup; the payload
is the constant template segments around the two escaped texts and the
enum-valued CSS class. -/
theorem claim7_untrusted_text_escaped :
    (∀ a b : String, escapeHtml (a ++ b) = escapeHtml a ++ escapeHtml b)
    ∧ escapeHtml "&" = "&amp;"
    ∧ escapeHtml "<" = "&lt;"
    ∧ escapeHtml ">" = "&gt;"
    ∧ escapeHtml "\"" = "&quot;"
    ∧ escapeHtml "\x27" = "&#039;"
    ∧ (∀ c : Char,
        (c == '&' || c == '<' || c == '>' || c == '"' || c == '\'') = false →
        escapeHtml (String.singleton c) = String.singleton c)
    ∧ (∀ s : String, htmlSafe (escapeHtml s) = true)
    ∧ (∀ (inputFile : String) (ps : PreviewState),
        previewContentHtml inputFile ps
          = pvSeg1 ++ escapeHtml (basename inputFile) ++ pvSeg2
            ++ ps.type.cssClass ++ pvSeg3 ++ escapeHtml ps.content ++ pvSeg4) := by
  refine ⟨escapeHtml_append, by decide, by decide, by decide, by decide, by decide,
    ?_, escapeHtml_safe, fun _ _ => rfl⟩
  intro c hc
  simp only [Bool.or_eq_false_iff, beq_eq_false_iff_ne, ne_eq] at hc
  obtain ⟨⟨⟨⟨h0, h1⟩, h2⟩, h3⟩, h4⟩ := hc
  show escapeList (String.singleton c).data = String.singleton c
  have hd : (String.singleton c).data = [c] := rfl
  rw [hd]
  show escapeChar c ++ escapeList [] = String.singleton c
  rw [show escapeList [] = "" from rfl]
  rw [escapeChar, if_neg h0, if_neg h1, if_neg h2, if_neg h3, if_neg h4]
  exact String.append_empty _

/-- Witness for C7 at a concrete non-special character. -/
theorem claim7_witness :
    escapeHtml (String.singleton 'x') = String.singleton 'x' :=
  claim7_untrusted_text_escaped.2.2.2.2.2.2.1 'x' (by decide)

/-! ## The appended extension source (src/README.md)

The definitions below embed the fuller extension.ts revision appended
after the README text in src/README.md: the `highlightJson` tinting
pass (lines 684-702), the tinted-vs-plain result pane of
`getWebviewContent` (lines 320-326), the success-only result action
buttons (lines 350-355), the webview script that reads the result
pane's `innerText` and sends it as the `openResultDoc` message content
(lines 462-482), and the `openResultDoc` branch of the message handler
(lines 279-292).  The regexes of `highlightJson` are embedded as
scanners over character lists with the same match semantics, including
word boundaries and the backtracking order of the optional groups. -/

/-- Scan the body of a quoted string after the opening quote, honoring
backslash escapes (`esc` is set right after a backslash); returns the
consumed characters (closing quote included) and the rest.  This is the
match semantics of the string regex of `highlightJson`: the body
alternatives (escape pair, plain non-quote non-backslash character) are
disjoint, so the regex is deterministic. -/
def scanStringBody : Nat → Bool → List Char → Option (List Char × List Char)
  | 0, _, _ => none
  | _ + 1, _, [] => none
  | fuel + 1, true, c :: rest =>
      match scanStringBody fuel false rest with
      | some (b, r) => some (c :: b, r)
      | none => none
  | fuel + 1, false, c :: rest =>
    if c = '"' then some ([c], rest)
    else if c = '\\' then
      match scanStringBody fuel true rest with
      | some (b, r) => some (c :: b, r)
      | none => none
    else
      match scanStringBody fuel false rest with
      | some (b, r) => some (c :: b, r)
      | none => none

/-- Scan one quoted string from the front of the text. -/
def scanString (cs : List Char) : Option (List Char × List Char) :=
  match cs with
  | [] => none
  | c :: rest =>
      if c = '"' then
        match scanStringBody rest.length false rest with
        | some (b, r) => some (c :: b, r)
        | none => none
      else none

/-- Maximal digit run at the front of the text (the `\d+` piece). -/
def scanDigits : List Char → List Char × List Char
  | [] => ([], [])
  | c :: r =>
    if c.isDigit then
      let d := scanDigits r
      (c :: d.1, d.2)
    else ([], c :: r)

theorem scanStringBody_append :
    ∀ (fuel : Nat) (esc : Bool) (cs b r : List Char),
      scanStringBody fuel esc cs = some (b, r) → b ++ r = cs := by
  intro fuel
  induction fuel with
  | zero =>
    intro esc cs b r h
    simp [scanStringBody] at h
  | succ f ih =>
    intro esc cs b r h
    cases cs with
    | nil => simp [scanStringBody] at h
    | cons c rest =>
      cases esc with
      | true =>
        simp only [scanStringBody] at h
        rcases hs : scanStringBody f false rest with _ | ⟨b0, r0⟩
        · rw [hs] at h
          simp at h
        · rw [hs] at h
          simp only [Option.some.injEq, Prod.mk.injEq] at h
          obtain ⟨hb, hr⟩ := h
          subst hb
          subst hr
          show c :: (b0 ++ r0) = c :: rest
          rw [ih false rest b0 r0 hs]
      | false =>
        simp only [scanStringBody] at h
        by_cases h1 : c = '"'
        · rw [if_pos h1] at h
          simp only [Option.some.injEq, Prod.mk.injEq] at h
          obtain ⟨hb, hr⟩ := h
          subst hb
          subst hr
          rfl
        · rw [if_neg h1] at h
          by_cases h2 : c = '\\'
          · rw [if_pos h2] at h
            rcases hs : scanStringBody f true rest with _ | ⟨b0, r0⟩
            · rw [hs] at h
              simp at h
            · rw [hs] at h
              simp only [Option.some.injEq, Prod.mk.injEq] at h
              obtain ⟨hb, hr⟩ := h
              subst hb
              subst hr
              show c :: (b0 ++ r0) = c :: rest
              rw [ih true rest b0 r0 hs]
          · rw [if_neg h2] at h
            rcases hs : scanStringBody f false rest with _ | ⟨b0, r0⟩
            · rw [hs] at h
              simp at h
            · rw [hs] at h
              simp only [Option.some.injEq, Prod.mk.injEq] at h
              obtain ⟨hb, hr⟩ := h
              subst hb
              subst hr
              show c :: (b0 ++ r0) = c :: rest
              rw [ih false rest b0 r0 hs]

theorem scanString_append (cs b r : List Char)
    (h : scanString cs = some (b, r)) : b ++ r = cs := by
  cases cs with
  | nil => simp [scanString] at h
  | cons c rest =>
    simp only [scanString] at h
    by_cases h1 : c = '"'
    · rw [if_pos h1] at h
      rcases hs : scanStringBody rest.length false rest with _ | ⟨b0, r0⟩
      · rw [hs] at h
        simp at h
      · rw [hs] at h
        simp only [Option.some.injEq, Prod.mk.injEq] at h
        obtain ⟨hb, hr⟩ := h
        subst hb
        subst hr
        show c :: (b0 ++ r0) = c :: rest
        rw [scanStringBody_append rest.length false rest b0 r0 hs]
    · rw [if_neg h1] at h
      simp at h

theorem scanDigits_append (cs : List Char) :
    (scanDigits cs).1 ++ (scanDigits cs).2 = cs := by
  induction cs with
  | nil => rfl
  | cons c r ih =>
    simp only [scanDigits]
    by_cases h : c.isDigit
    · rw [if_pos h]
      show c :: ((scanDigits r).1 ++ (scanDigits r).2) = c :: r
      rw [ih]
    · rw [if_neg h]
      rfl

/-- Structural prefix test over character lists. -/
def isPrefixList : List Char → List Char → Bool
  | [], _ => true
  | _ :: _, [] => false
  | a :: as, b :: bs => a == b && isPrefixList as bs

theorem isPrefixList_append_drop :
    ∀ l1 l2 : List Char, isPrefixList l1 l2 = true →
      l1 ++ l2.drop l1.length = l2 := by
  intro l1
  induction l1 with
  | nil =>
    intro l2 _
    simp
  | cons a as ih =>
    intro l2 h
    cases l2 with
    | nil => simp [isPrefixList] at h
    | cons b bs =>
      simp only [isPrefixList, Bool.and_eq_true, beq_iff_eq] at h
      obtain ⟨rfl, h2⟩ := h
      show a :: (as ++ bs.drop as.length) = a :: bs
      rw [ih bs h2]

def litTrue : List Char := ['t', 'r', 'u', 'e']
def litFalse : List Char := ['f', 'a', 'l', 's', 'e']
def litNull : List Char := ['n', 'u', 'l', 'l']

/-- The JavaScript word-character class `\w` (ASCII), which defines the
word boundaries `\b` of the number, boolean and null regexes. -/
def isWordChar (c : Char) : Bool :=
  c.isAlpha || c.isDigit || c = '_'

/-- The ASCII part of the JavaScript whitespace class `\s`, used by the
`\s*` between a key string and its colon.  (The unicode spaces of `\s`
cannot appear in the texts the pass receives.) -/
def isSpaceChar (c : Char) : Bool :=
  c == ' ' || c == '\t' || c == '\n' || c == '\r' || c == '\x0C' || c == '\x0B'

/-- Maximal run of characters satisfying a predicate. -/
def spanPred (p : Char → Bool) : List Char → List Char × List Char
  | [] => ([], [])
  | c :: t =>
    if p c then
      let r := spanPred p t
      (c :: r.1, r.2)
    else ([], c :: t)

/-- The word-boundary `\b` after the last digit of a number, boolean or
null match: the next character is absent or a non-word character. -/
def tailBoundaryOK : List Char → Bool
  | [] => true
  | c :: _ => !isWordChar c

/-- Whether the character before the current scan position is a word
character (`none` at the start of the line behaves as a non-word). -/
def prevIsWord : Option Char → Bool
  | none => false
  | some c => isWordChar c

def descRange : Nat → List Nat
  | 0 => []
  | n + 1 => (n + 1) :: descRange n

/-! ## The five regex passes of `highlightJson` (appended source,
lines 684-702)

Each pass is a JavaScript `String.replace` with a global regex: a
left-to-right scan that, at each position, either replaces a match and
resumes after it (replacements are never rescanned within the same
pass) or copies one character.  Word boundaries are decided against the
source text being scanned, so the scan threads the previous source
character. -/

/-- Match of the key regex at the current position: a quoted string,
optional whitespace, and a colon.  The capture group (string plus the
whitespace) is embedded escaped in an `hljs-attr` span, the colon kept
outside, exactly as the replacement template does. -/
def matchKeyAt (cs : List Char) : Option (List Char × List Char × List Char) :=
  match scanString cs with
  | none => none
  | some (str, r1) =>
      let ws := spanPred isSpaceChar r1
      match ws.2 with
      | ':' :: r3 =>
          some (str ++ ws.1 ++ [':'],
            "<span class=\"hljs-attr\">".data
              ++ (escapeList (str ++ ws.1)).data
              ++ "</span>".data ++ [':'],
            r3)
      | _ => none

/-- Match of the string regex at the current position.  A match whose
text contains `hljs-attr` is kept unchanged (the guard protecting the
class attribute injected by the key pass); any other match is embedded
escaped in an `hljs-string` span. -/
def matchStringAt (cs : List Char) : Option (List Char × List Char × List Char) :=
  match scanString cs with
  | none => none
  | some (str, r) =>
      some (str,
        if listContainsSub "hljs-attr".data str then str
        else "<span class=\"hljs-string\">".data
          ++ (escapeList str).data ++ "</span>".data,
        r)

/-- Candidates for the optional fractional part, in the order the regex
engine tries them: present with a greedy digit run, shrinking one digit
at a time, then absent. -/
def fracCands (cs : List Char) : List (List Char × List Char) :=
  (match cs with
   | '.' :: t =>
       let fs := scanDigits t
       (descRange fs.1.length).map
         (fun k => ('.' :: fs.1.take k, fs.1.drop k ++ fs.2))
   | _ => []) ++ [([], cs)]

/-- Candidates for the optional exponent, in the order the regex engine
tries them: sign present (greedy digits, shrinking), sign absent
(greedy digits, shrinking), then the whole group absent. -/
def expCands (cs : List Char) : List (List Char × List Char) :=
  (match cs with
   | e :: t =>
       if e = 'e' ∨ e = 'E' then
         (match t with
          | s :: t2 =>
              if s = '+' ∨ s = '-' then
                let es := scanDigits t2
                (descRange es.1.length).map
                  (fun k => (e :: s :: es.1.take k, es.1.drop k ++ es.2))
              else []
          | [] => []) ++
         (let es := scanDigits t
          (descRange es.1.length).map
            (fun k => (e :: es.1.take k, es.1.drop k ++ es.2)))
       else []
   | [] => []) ++ [([], cs)]

/-- Backtracking search for the digits-fraction-exponent body of the
number regex, ending on a word boundary: main digit run greedy and
shrinking, then fraction candidates, then exponent candidates, first
success wins — the order a backtracking engine explores. -/
def searchNumber (cs : List Char) : Option (List Char × List Char) :=
  let ds := scanDigits cs
  (descRange ds.1.length).findSome? fun k =>
    (fracCands (ds.1.drop k ++ ds.2)).findSome? fun fc =>
      (expCands fc.2).findSome? fun ec =>
        if tailBoundaryOK ec.2 then
          some (ds.1.take k ++ fc.1 ++ ec.1, ec.2)
        else none

/-- Match of the number regex at the current position.  A leading minus
always gives the interior word boundary (minus is a non-word
character); without it the previous character must be non-word. -/
def matchNumberAt (prev : Option Char) (cs : List Char) :
    Option (List Char × List Char × List Char) :=
  match cs with
  | '-' :: t =>
      match searchNumber t with
      | some (n, r) =>
          some ('-' :: n,
            "<span class=\"hljs-number\">".data ++ ('-' :: n)
              ++ "</span>".data, r)
      | none => none
  | _ =>
      if prevIsWord prev then none
      else
        match searchNumber cs with
        | some (n, r) =>
            some (n,
              "<span class=\"hljs-number\">".data ++ n ++ "</span>".data, r)
        | none => none

/-- Match of the boolean regex at the current position: `true` or
`false` between word boundaries; `false` is tried when `true` fails. -/
def matchBoolAt (prev : Option Char) (cs : List Char) :
    Option (List Char × List Char × List Char) :=
  if prevIsWord prev then none
  else if isPrefixList litTrue cs && tailBoundaryOK (cs.drop 4) then
    some (litTrue,
      "<span class=\"hljs-boolean\">".data ++ litTrue ++ "</span>".data,
      cs.drop 4)
  else if isPrefixList litFalse cs && tailBoundaryOK (cs.drop 5) then
    some (litFalse,
      "<span class=\"hljs-boolean\">".data ++ litFalse ++ "</span>".data,
      cs.drop 5)
  else none

/-- Match of the null regex at the current position: `null` between
word boundaries. -/
def matchNullAt (prev : Option Char) (cs : List Char) :
    Option (List Char × List Char × List Char) :=
  if prevIsWord prev then none
  else if isPrefixList litNull cs && tailBoundaryOK (cs.drop 4) then
    some (litNull,
      "<span class=\"hljs-null\">".data ++ litNull ++ "</span>".data,
      cs.drop 4)
  else none

/-- The `String.replace` driver: the matcher receives the previous
source character (for its word boundaries) and the rest of the source;
on a match its replacement is emitted and the scan resumes after the
matched source text. -/
def replaceScan
    (tryAt : Option Char → List Char → Option (List Char × List Char × List Char)) :
    Nat → Option Char → List Char → List Char
  | 0, _, cs => cs
  | _ + 1, _, [] => []
  | fuel + 1, prev, c :: rest =>
    match tryAt prev (c :: rest) with
    | some (matched, repl, r) =>
        repl ++ replaceScan tryAt fuel matched.getLast? r
    | none => c :: replaceScan tryAt fuel (some c) rest

def passKey (l : List Char) : List Char :=
  replaceScan (fun _ cs => matchKeyAt cs) l.length none l

def passString (l : List Char) : List Char :=
  replaceScan (fun _ cs => matchStringAt cs) l.length none l

def passNumber (l : List Char) : List Char :=
  replaceScan matchNumberAt l.length none l

def passBool (l : List Char) : List Char :=
  replaceScan matchBoolAt l.length none l

def passNull (l : List Char) : List Char :=
  replaceScan matchNullAt l.length none l

/-- `highlightLine` (appended source, lines 691-700): the five
replacement passes applied in order — keys, strings, numbers, booleans,
null — each pass scanning the output of the previous one. -/
def highlightLine (l : List Char) : List Char :=
  passNull (passBool (passNumber (passString (passKey l))))

/-- The split on the line separator regex of `highlightJson`: a newline
with an optional carriage return before it. -/
def splitCRLF (cur : List Char) : List Char → List (List Char)
  | [] => [cur.reverse]
  | '\r' :: '\n' :: t => cur.reverse :: splitCRLF [] t
  | '\n' :: t => cur.reverse :: splitCRLF [] t
  | c :: t => splitCRLF (c :: cur) t

def joinLines : List (List Char) → List Char
  | [] => []
  | [l] => l
  | l :: ls => l ++ '\n' :: joinLines ls

/-- `highlightJson` (appended source, lines 684-702): split into lines,
highlight each line, rejoin with newlines. -/
def highlightJson (cs : List Char) : List Char :=
  joinLines ((splitCRLF [] cs).map highlightLine)

/-- The result pane of `getWebviewContent` in the appended source
(lines 320-326): tinted structured output when the raw-output flag is
not set and the last result is a success, literal escaped text
otherwise. -/
def jqResultPaneHtml (options : List String) (ps : PreviewState) : String :=
  if options.contains "-r" = false ∧ ps.type = PreviewType.result then
    "<pre class=\"jq-json-output\">" ++ String.mk (highlightJson ps.content.data)
      ++ "</pre>"
  else
    "<pre>" ++ escapeHtml ps.content ++ "</pre>"

/-- The text the browser renders for the pane markup (its `innerText`):
tags contribute nothing, the five entities the renderer can emit decode
to their characters, a stray ampersand that opens no such entity is
literal — which is exactly how a browser renders an entity broken apart
by an injected tag. -/
def textOfHtml : Bool → List Char → List Char
  | _, [] => []
  | true, '>' :: t => textOfHtml false t
  | true, _ :: t => textOfHtml true t
  | false, '<' :: t => textOfHtml true t
  | false, '&' :: 'a' :: 'm' :: 'p' :: ';' :: t => '&' :: textOfHtml false t
  | false, '&' :: 'l' :: 't' :: ';' :: t => '<' :: textOfHtml false t
  | false, '&' :: 'g' :: 't' :: ';' :: t => '>' :: textOfHtml false t
  | false, '&' :: 'q' :: 'u' :: 'o' :: 't' :: ';' :: t => '"' :: textOfHtml false t
  | false, '&' :: '#' :: '0' :: '3' :: '9' :: ';' :: t => '\'' :: textOfHtml false t
  | false, c :: t => c :: textOfHtml false t

/-- The displayed body text of the result pane: what the webview script
reads as `resultPane.innerText` and sends as the content of the
`openResultDoc` message (appended source, lines 462-482). -/
def resultPaneText (options : List String) (ps : PreviewState) : String :=
  String.mk (textOfHtml false (jqResultPaneHtml options ps).data)

/-- The result action buttons of the appended source (lines 350-355),
rendered into the preview content only when the preview type is
`Result`; the constant svg icon markup inside the buttons is elided. -/
def resultActionsHtml : String :=
  "<div class=\"jq-result-actions\" id=\"jq-result-actions\"><button class=\"jq-action-btn\" id=\"jq-copy-btn\" title=\"Copy to clipboard\" aria-label=\"Copy\"></button><button class=\"jq-action-btn\" id=\"jq-open-btn\" title=\"Open in new document\" aria-label=\"Open\"></button></div>"

/-- The conditional of line 350: the action block is the buttons when
the last result was a success, the empty string otherwise. -/
def resultActionsBlock (ps : PreviewState) : String :=
  if ps.type = PreviewType.result then resultActionsHtml else ""

/-- The inbound webview messages of the appended source's
`setupPanelHandlers` (lines 268-293): option replacement, input
re-selection, the materialize request carrying the pane text, or
anything else (ignored). -/
inductive PanelMsg
  | setOptions (options : List String)
  | chooseInput
  | openResultDoc (content : String)
  | otherMsg (msgType : String)
deriving DecidableEq, Repr

/-- The document opened by `vscode.workspace.openTextDocument`: its
content and optional language association. -/
structure NewDoc where
  content : String
  language : Option String
deriving DecidableEq, Repr

/-- The message handler of the appended source (lines 268-293).  The
`openResultDoc` branch opens a new document whose content is the
carried message content, with the `json` language iff the raw-output
flag is absent from the options at handling time; the other branches
open no document. -/
def handlePanelMsg (pick : Option String) (s : Session) :
    PanelMsg → Session × Option NewDoc
  | PanelMsg.setOptions opts => ({ s with options := opts }, none)
  | PanelMsg.chooseInput =>
      match pick with
      | some newInput =>
          ({ s with inputFile := newInput,
                    options := updateROption newInput s.options }, none)
      | none => (s, none)
  | PanelMsg.openResultDoc content =>
      (s, some { content := content,
                 language := if s.options.contains "-r" then none
                             else some "json" })
  | PanelMsg.otherMsg _ => (s, none)

set_option maxRecDepth 16384 in
/-- C8: the appended extension source decodes the materialize request
(`openResultDoc`); the action buttons that offer it are rendered iff
the last result was a success; the opened document's content is exactly
the displayed body text the webview read from the result pane; and the
`json` language association is applied iff the raw-output flag is not
set.  The last two conjuncts evaluate the displayed pane text on both
rendering branches, where it coincides with the result content. -/
theorem claim8_materialize_open_result_doc :
    (∀ (pick : Option String) (s : Session) (c : String),
        (handlePanelMsg pick s (PanelMsg.openResultDoc c)).2
          = some { content := c,
                   language := if s.options.contains "-r" then none
                               else some "json" })
    ∧ (∀ (pick : Option String) (s : Session),
        ((handlePanelMsg pick s (PanelMsg.openResultDoc
            (resultPaneText s.options s.previewState))).2.map NewDoc.content)
          = some (resultPaneText s.options s.previewState))
    ∧ (∀ ps : PreviewState,
        (resultActionsBlock ps = "") ↔ ¬ ps.type = PreviewType.result)
    ∧ (∀ (pick : Option String) (s : Session) (opts : List String),
        (handlePanelMsg pick s (PanelMsg.setOptions opts)).2 = none)
    ∧ (∀ (pick : Option String) (s : Session),
        (handlePanelMsg pick s PanelMsg.chooseInput).2 = none)
    ∧ resultPaneText ["-r"]
        { content := "a&b<c>", type := PreviewType.result } = "a&b<c>"
    ∧ resultPaneText []
        { content := "\"rate\": -12.5e3, true, null",
          type := PreviewType.result }
      = "\"rate\": -12.5e3, true, null" := by
  refine ⟨fun _ _ _ => rfl, fun _ _ => rfl, ?_, fun _ _ _ => rfl, ?_,
    by decide, by decide⟩
  · intro ps
    unfold resultActionsBlock
    by_cases h : ps.type = PreviewType.result
    · rw [if_pos h]
      constructor
      · intro he
        exact absurd he (by decide)
      · intro hn
        exact absurd h hn
    · rw [if_neg h]
      simp [h]
  · intro pick s
    cases pick <;> rfl

set_option maxRecDepth 16384 in
/-- C9 fails on the code: `highlightJson` of the appended extension
source does run line-oriented regex passes in the claimed order — keys
before a colon, strings, numbers, booleans, null, as the composition in
`highlightLine` shows — but the pass can alter the underlying result
text that gets copied or reopened.  On the success output whose key
contains an apostrophe character, the key pass escapes the apostrophe
to its numeric entity and the later number pass wraps the digits `039`
of that entity in a span, splitting the entity, so the pane text (read
by copy and open-as-document) gains six characters where the apostrophe
stood.  The remaining conjuncts evaluate the word-boundary behavior of
the number and boolean regexes and the intact typical case. -/
theorem claim9_tinting_alters_copied_text :
    (∀ l : List Char,
        highlightLine l
          = passNull (passBool (passNumber (passString (passKey l)))))
    ∧ resultPaneText []
        { content := "\"don\x27t\": 1", type := PreviewType.result }
      = "\"don&#039;t\": 1"
    ∧ resultPaneText []
        { content := "\"don\x27t\": 1", type := PreviewType.result }
      ≠ "\"don\x27t\": 1"
    ∧ String.mk (highlightLine "\"don\x27t\": 1".data)
      = "<span class=\"hljs-attr\">&quot;don&#<span class=\"hljs-number\">039</span>;t&quot;</span>: <span class=\"hljs-number\">1</span>"
    ∧ String.mk (highlightLine "a1".data) = "a1"
    ∧ String.mk (highlightLine "truex".data) = "truex"
    ∧ resultPaneText []
        { content := "\"rate\": -12.5e3, true, null",
          type := PreviewType.result }
      = "\"rate\": -12.5e3, true, null" := by
  refine ⟨fun l => rfl, by decide, by decide, by decide, by decide,
    by decide, by decide⟩
